import Mathlib

/-!
Shallow embedding of the refgenie CLI core (src/refgenie/refgenie.py):
the registry data model, the dependency-aware build orchestration
(refgenie_build), and the lifecycle operations add / remove / tag,
together with theorems checking the specification claims against this
embedding.

External collaborators (the refgenconf configuration store, the ubiquerg
registry-path parser, the pypiper command runner, the refget sequence
checksum) are modelled as explicit state and context parameters following
the collaborator contracts stated in the specification; the control flow
of the CLI module itself is translated line by line from the source.
Filesystem observations (path existence, directory-ness, writability) and
the external command outcomes are inputs of the embedding, carried in a
context structure.
-/

namespace Refgenie

/-- Association list: the in-memory mirror of one level of the nested YAML
mapping held by the configuration store. -/
abbrev AList (K V : Type) := List (K × V)

def alistFind {K V : Type} [DecidableEq K] (k : K) : AList K V → Option V
  | [] => none
  | (k1, v) :: rest => if k1 = k then some v else alistFind k rest

/-- Update the value at a key, inserting (from the supplied default) when
the key is absent: the create-missing-levels behaviour of the store
update functions. -/
def alistUpsert {K V : Type} [DecidableEq K] (k : K) (d : V) (f : V → V) :
    AList K V → AList K V
  | [] => [(k, f d)]
  | (k1, v) :: rest =>
    if k1 = k then (k1, f v) :: rest else (k1, v) :: alistUpsert k d f rest

def alistRemove {K V : Type} [DecidableEq K] (k : K) : AList K V → AList K V
  | [] => []
  | (k1, v) :: rest => if k1 = k then rest else (k1, v) :: alistRemove k rest

/-- os.path.join for absolute, already-normalized components. -/
def joinP (ps : List String) : String := String.intercalate "/" ps

/-- os.path.abspath(os.path.join(p, os.pardir)) for a normalized absolute
path: drop the last component. -/
def parentDir (p : String) : String :=
  String.intercalate "/" (p.splitOn "/").dropLast

/-- os.path.basename for a normalized path. -/
def baseName (p : String) : String := ((p.splitOn "/").getLast?).getD ""

/-- Per-tag record of an asset (the leaf of the configuration store tree):
path, seek keys, checksum, relatives, and the completion marker consulted
by is_asset_complete. Seek-key names are Option String because
refgenie_add uses the parsed seek-key field itself, which may be absent,
as the mapping key. -/
structure TagRecord where
  path : Option String := none
  seekKeys : AList (Option String) String := []
  checksum : Option String := none
  parents : List String := []
  children : List String := []
  complete : Bool := true
deriving DecidableEq

structure AssetRecord where
  description : Option String := none
  defaultTag : Option String := none
  tags : AList String TagRecord := []
deriving DecidableEq

structure GenomeRecord where
  checksum : Option String := none
  assets : AList String AssetRecord := []
deriving DecidableEq

/-- The configuration store state (refgenconf RefGenConf): the genome
folder attribute and the genomes tree. -/
structure Config where
  genomeFolder : String := ""
  genomes : AList String GenomeRecord := []
deriving DecidableEq

/-- The Python exceptions raised along the embedded control flow. -/
inductive Err where
  | missingGenome (g : String)
  | keyError (k : String)
  | valueError (msg : String)
  | osError (msg : String)
  | typeError
  | notImplemented (msg : String)
  | indexError
  | runFailed (target : String)
deriving DecidableEq

/-- Observable side effects of one invocation, in order of occurrence.
A write effect carries the configuration snapshot being persisted. -/
inductive Effect where
  | write (c : Config)
  | makeDir (p : String)
  | run (target : String)
  | digestsFile (genome : String)
  | copy (src dst : String)
  | prompt (msg : String)
  | removePath (p : String)
  | rename (src dst : String)
deriving DecidableEq

def DEFAULT_TAG : String := "default"

def findGenome (c : Config) (g : String) : Option GenomeRecord :=
  alistFind g c.genomes

def findAsset (c : Config) (g a : String) : Option AssetRecord :=
  (findGenome c g).bind (fun gr => alistFind a gr.assets)

def findTag (c : Config) (g a t : String) : Option TagRecord :=
  (findAsset c g a).bind (fun ar => alistFind t ar.tags)

/-- Modelled from the spec: store contract get_default_tag (section 4.4).
Returns the recorded default tag, and a deterministic fallback label when
none is recorded. -/
def get_default_tag (c : Config) (g a : String) (_useExisting : Bool) : String :=
  ((findAsset c g a).bind (fun ar => ar.defaultTag)).getD DEFAULT_TAG

/-- Modelled from the spec: store contract get_asset. An absent genome
raises MissingGenomeError (exactly the exception the CLI code catches
around its calls); an absent asset yields an empty, falsy result, which
the CLI code tests for; otherwise the registered path is assembled from
genome_folder / genome / tag path / tag, and a requested seek key is
resolved against the seek-key table (KeyError when absent). -/
def get_asset (c : Config) (g a : String) (t sk : Option String) :
    Except Err (Option String) :=
  match findGenome c g with
  | none => .error (.missingGenome g)
  | some gr =>
    match alistFind a gr.assets with
    | none => .ok none
    | some ar =>
      let tag := t.getD (ar.defaultTag.getD DEFAULT_TAG)
      let pathComp := ((alistFind tag ar.tags).bind (fun tr => tr.path)).getD a
      let base := joinP [c.genomeFolder, g, pathComp, tag]
      match sk with
      | none => .ok (some base)
      | some k =>
        match alistFind tag ar.tags with
        | none => .error (.keyError k)
        | some tr =>
          match alistFind (some k) tr.seekKeys with
          | none => .error (.keyError k)
          | some v => .ok (some (joinP [base, v]))

/-- Store contract update_genomes as used by refgenie_initg: record the
collection checksum of a genome. -/
def updateGenomes (c : Config) (g chk : String) : Config :=
  { c with genomes :=
      alistUpsert g {} (fun gr => { gr with checksum := some chk }) c.genomes }

/-- Store contract update_assets: record the asset description. -/
def updateAssets (c : Config) (g a desc : String) : Config :=
  { c with genomes := alistUpsert g {} (fun gr =>
      { gr with assets := alistUpsert a {} (fun ar =>
          { ar with description := some desc }) gr.assets }) c.genomes }

/-- Store contract update_tags: update the tag record of (genome, asset,
tag) through the supplied field change, creating missing levels. -/
def updateTags (c : Config) (g a t : String) (f : TagRecord → TagRecord) : Config :=
  { c with genomes := alistUpsert g {} (fun gr =>
      { gr with assets := alistUpsert a {} (fun ar =>
          { ar with tags := alistUpsert t {} f ar.tags }) gr.assets }) c.genomes }

/-- Store contract update_seek_keys: merge the supplied mapping into the
seek-key table of the tag record. -/
def updateSeekKeys (c : Config) (g a t : String)
    (kvs : AList (Option String) String) : Config :=
  updateTags c g a t (fun tr =>
    { tr with seekKeys :=
        kvs.foldl (fun m kv => alistUpsert kv.1 kv.2 (fun _ => kv.2) m) tr.seekKeys })

/-- Append elements not already present, preserving order. -/
def extendUnique (l add : List String) : List String :=
  add.foldl (fun acc x => if x ∈ acc then acc else acc ++ [x]) l

/-- Modelled from the spec: store contract update_relatives_assets; append
the relatives without duplicates, to the children list when the flag is
set, else to the parents list. -/
def updateRelatives (c : Config) (g a t : String) (rels : List String)
    (children : Bool) : Config :=
  updateTags c g a t (fun tr =>
    if children then { tr with children := extendUnique tr.children rels }
    else { tr with parents := extendUnique tr.parents rels })

/-- Store contract set_default_pointer. -/
def setDefaultPointer (c : Config) (g a t : String) : Config :=
  { c with genomes := alistUpsert g {} (fun gr =>
      { gr with assets := alistUpsert a {} (fun ar =>
          { ar with defaultTag := some t }) gr.assets }) c.genomes }

/-- Modelled from the spec: store contract remove_assets with the
documented metadata cascade: dropping the last tag of an asset drops the
asset entry (the genome entry is removed by the CLI itself); an absent
key is tolerated. -/
def removeAssets (c : Config) (g a t : String) : Config :=
  { c with genomes := alistUpsert g {} (fun gr =>
      let assets1 := alistUpsert a {}
        (fun ar => { ar with tags := alistRemove t ar.tags }) gr.assets
      let assets2 :=
        match alistFind a assets1 with
        | some ar => if ar.tags.isEmpty then alistRemove a assets1 else assets1
        | none => assets1
      { gr with assets := assets2 }) c.genomes }

/-- Modelled from the spec: store contract tag_asset (section 4.4): rename
the tag in store metadata only; when the source tag (possibly an absent,
unresolved field) is not recorded, the rename fails and nothing changes. -/
def tag_asset (c : Config) (g a : String) (old : Option String) (new : String) :
    Option Config :=
  match old with
  | none => none
  | some o =>
    match findTag c g a o with
    | none => none
    | some tr =>
      let c1 := updateTags c g a new (fun _ => tr)
      some { c1 with
              genomes := alistUpsert g {} (fun gr =>
                { gr with assets := alistUpsert a {} (fun ar =>
                    { ar with tags := alistRemove o ar.tags }) gr.assets })
                c1.genomes }

/-- Modelled from the spec: store contract is_asset_complete; consult the
completion marker of the addressed bundle, raising a lookup error (the
KeyError / MissingAssetError / MissingGenomeError family, caught together
by the CLI) when the genome, asset or tag record is absent. -/
def is_asset_complete (c : Config) (g a t : String) : Except Err Bool :=
  match findTag c g a t with
  | none => .error (.keyError a)
  | some tr => .ok tr.complete

/-- A parsed registry path: the dict produced by parse_registry_path with
the defaults protocol / genome / asset / seek_key / tag. The embedded
flows all require an asset name (a missing asset is a parse failure
upstream of them), so the asset field is a plain string. -/
structure ParsedAsset where
  genome : Option String := none
  asset : String
  seek_key : Option String := none
  tag : Option String := none
deriving DecidableEq

/-- The key set of a parsed registry-path dict: exactly the five default
names passed to parse_registry_path. -/
def parsedKeys : List String := ["protocol", "genome", "asset", "seek_key", "tag"]

/-- A parsed item string (ubiquerg parse_registry_path with its stock
defaults): asset[.seek][:tag], as used for recipe requirements and for
the parent-tag override arguments of the -t option. -/
structure PItem where
  item : String
  subitem : Option String := none
  tag : Option String := none
deriving DecidableEq

/-- Re-render a parsed item the way the catalog spells it (used in the
missing-requirement error message, which quotes the raw catalog string). -/
def PItem.render (p : PItem) : String :=
  p.item
    ++ (match p.subitem with | some s => "." ++ s | none => "")
    ++ (match p.tag with | some t => ":" ++ t | none => "")

/-- Modelled from the spec: one entry of the asset_build_packages recipe
catalog (a repository module that is not under src/): description,
required raw-input flags, required parent assets (parsed forms of the
asset[:tag] strings of the catalog), command templates, output seek-key
path templates and container image. Command and seek-key templates are
kept verbatim; their string interpolation is outside the claims. -/
structure Recipe where
  desc : String := ""
  reqIn : List String := []
  reqAssets : List PItem := []
  cmds : List String := []
  assets : AList String String := []
  container : String := ""

/-- Arguments of one invocation together with the external collaborators:
filesystem observations, the command-runner verdict, the sequence-checksum
collaborator and the directory-digest computation are inputs here, since
they live outside the configuration store. -/
structure Ctx where
  catalog : AList String Recipe := []
  specific : String → Option String := fun _ => none
  tagsArg : Option (List PItem) := none
  outfolder : Option String := none
  writable : Bool := true
  docker : Bool := false
  fastaChecksum : String → String × AList String String := fun _ => ("", [])
  digestOf : String → String := fun _ => ""
  runnerOk : String → Bool := fun _ => true
  pathExists : String → Bool := fun _ => true
  isDir : String → Bool := fun _ => true
  genomeDirWritable : Bool := true
  promptYes : Bool := true

/-- Path-field comparison on md5sum output lines, the sort key of the
digest pipeline (sort -k 2). -/
def pathLe (p q : String × String) : Prop := p.1 ≤ q.1

instance : DecidableRel pathLe :=
  fun p q => inferInstanceAs (Decidable (p.1 ≤ q.1))

instance : IsTotal (String × String) pathLe :=
  ⟨fun p q => le_total p.1 q.1⟩

instance : IsTrans (String × String) pathLe :=
  ⟨fun _ _ _ h1 h2 => le_trans h1 h2⟩

def pathLt (p q : String × String) : Prop := p.1 < q.1

instance : IsAntisymm (String × String) pathLt :=
  ⟨fun _ _ h1 h2 => absurd (lt_trans h1 h2) (lt_irrefl _)⟩

/-- The asset-directory digest of _get_asset_digest (lines 338-350): the
per-file md5 lines (content hash, relative path) are produced in
traversal order, sorted by the path field, the hash column is extracted,
and the result is hashed once more. The per-file content hash and the
final hash are abstract parameters (the md5sum tool). A directory listing
is the list of (relative path, file content) pairs in traversal order. -/
def _get_asset_digest (md5 : String → String) (finalHash : List String → String)
    (listing : List (String × String)) : String :=
  finalHash
    (((listing.map (fun f => (f.1, md5 f.2))).insertionSort pathLe).map Prod.snd)

theorem sorted_pathLt_of_nodup (l : List (String × String))
    (hs : l.Pairwise pathLe) (hnd : (l.map Prod.fst).Nodup) :
    l.Pairwise pathLt := by
  have hne : l.Pairwise (fun p q : String × String => p.1 ≠ q.1) :=
    List.pairwise_map.mp hnd
  exact (hs.and hne).imp (fun h => lt_of_le_of_ne h.1 h.2)

theorem digestSort_eq (l₁ l₂ : List (String × String))
    (hp : l₁.Perm l₂) (hnd : (l₁.map Prod.fst).Nodup) :
    l₁.insertionSort pathLe = l₂.insertionSort pathLe := by
  have hperm : (l₁.insertionSort pathLe).Perm (l₂.insertionSort pathLe) :=
    (List.perm_insertionSort pathLe l₁).trans
      (hp.trans (List.perm_insertionSort pathLe l₂).symm)
  have hnd₁ : ((l₁.insertionSort pathLe).map Prod.fst).Nodup :=
    (((List.perm_insertionSort pathLe l₁).map Prod.fst).nodup_iff).mpr hnd
  have hnd₂ : ((l₂.insertionSort pathLe).map Prod.fst).Nodup :=
    ((hperm.map Prod.fst).nodup_iff).mp hnd₁
  have hlt₁ : (l₁.insertionSort pathLe).Pairwise pathLt :=
    sorted_pathLt_of_nodup _ (List.sorted_insertionSort pathLe l₁) hnd₁
  have hlt₂ : (l₂.insertionSort pathLe).Pairwise pathLt :=
    sorted_pathLt_of_nodup _ (List.sorted_insertionSort pathLe l₂) hnd₂
  exact List.eq_of_perm_of_sorted hperm hlt₁ hlt₂

/-- C8: the asset directory digest is a hash of the path-sorted sequence of
(relative path, file content hash) pairs, so two directory trees holding
the same set of (relative path, content) pairs — relative paths being
unique within a tree — digest identically regardless of traversal or
creation order. -/
theorem asset_digest_traversal_invariant (md5 : String → String)
    (finalHash : List String → String) (l₁ l₂ : List (String × String))
    (hp : l₁.Perm l₂) (hnd : (l₁.map Prod.fst).Nodup) :
    _get_asset_digest md5 finalHash l₁ = _get_asset_digest md5 finalHash l₂ := by
  unfold _get_asset_digest
  have hmp : (l₁.map (fun f => (f.1, md5 f.2))).Perm
      (l₂.map (fun f => (f.1, md5 f.2))) := hp.map _
  have hmnd : ((l₁.map (fun f => (f.1, md5 f.2))).map Prod.fst).Nodup := by
    have heq : (l₁.map (fun f => (f.1, md5 f.2))).map Prod.fst = l₁.map Prod.fst := by
      simp [List.map_map, Function.comp]
    rw [heq]; exact hnd
  rw [digestSort_eq _ _ hmp hmnd]

/-- Witness for C8 at a concrete pair of listings that permute the same
file set. -/
theorem asset_digest_traversal_invariant_witness :
    ([("chr1.fa", "AAA"), ("chr2.fa", "CC")] : List (String × String)).Perm
        [("chr2.fa", "CC"), ("chr1.fa", "AAA")] ∧
    (([("chr1.fa", "AAA"), ("chr2.fa", "CC")] : List (String × String)).map
        Prod.fst).Nodup ∧
    _get_asset_digest id (String.intercalate "-")
        [("chr1.fa", "AAA"), ("chr2.fa", "CC")] =
      _get_asset_digest id (String.intercalate "-")
        [("chr2.fa", "CC"), ("chr1.fa", "AAA")] :=
  ⟨List.Perm.swap _ _ _, by decide,
    asset_digest_traversal_invariant id (String.intercalate "-") _ _
      (List.Perm.swap _ _ _) (by decide)⟩

def errorReqTemplate (ra ak : String) : String :=
  "Asset " ++ ra ++ " is required to build asset " ++ ak ++ ", but not provided"

def inputReqMsg (flag ak : String) : String :=
  "Argument " ++ flag ++ " is required to build asset " ++ ak ++ ", but not provided"

def parentTagMsg : String :=
  "Parent asset tag was not specified. To use the default one, skip the tags option."

/-- Lines 413-418 of refgenie_build: no override was given for this
required asset, so fetch it under its current default tag; the fetched
path (possibly empty) and the resolved parent:tag pair are returned. -/
def resolveParentDefault (c : Config) (genome : String) (ra : PItem) :
    Except Err ((String × Option String) × (String × String)) :=
  let dt := get_default_tag c genome ra.item true
  match get_asset c genome ra.item (some dt) ra.subitem with
  | .error e => .error e
  | .ok v => .ok ((ra.item, v), (ra.item, dt))

/-- Lines 396-418 of refgenie_build: resolve every required parent asset of
the recipe. An override from the tags argument is matched by item name but
fetched by the position of the required asset in the recipe list; an
override with no explicit tag is an error. The fetched input paths and
the resolved parent:tag pairs are accumulated. -/
def resolveParents (ctx : Ctx) (c : Config) (genome : String) (allReq : List PItem) :
    List PItem → Except Err (AList String (Option String) × List (String × String))
  | [] => .ok ([], [])
  | ra :: rest =>
    let step : Except Err ((String × Option String) × (String × String)) :=
      match ctx.tagsArg with
      | some pts =>
        if ra.item ∈ pts.map (fun p => p.item) then
          match pts.get? (allReq.indexOf ra) with
          | none => .error .indexError
          | some pd =>
            match pd.tag with
            | none => .error (.valueError parentTagMsg)
            | some ptag =>
              match get_asset c genome pd.item (some ptag) ra.subitem with
              | .error e => .error e
              | .ok v => .ok ((pd.item, v), (pd.item, ptag))
        else resolveParentDefault c genome ra
      | none => resolveParentDefault c genome ra
    match step with
    | .error e => .error e
    | .ok (ia, pa) =>
      match resolveParents ctx c genome allReq rest with
      | .error e => .error e
      | .ok (ias, pas) => .ok (ia :: ias, pa :: pas)

/-- Lines 420-425 of refgenie_build: every required raw input must be
supplied; a missing one raises a ValueError naming the flag and the
asset. -/
def checkInputs (ctx : Ctx) (asset_key : String) : List String → Except Err Unit
  | [] => .ok ()
  | flag :: rest =>
    if (ctx.specific flag).isNone then
      .error (.valueError (inputReqMsg flag asset_key))
    else checkInputs ctx asset_key rest

/-- Lines 426-433 of refgenie_build: verify every required parent is
actually present; a missing parent (empty fetch result) and a missing
genome both raise the ValueError built from the requirement template,
naming the parent and the asset being built. -/
def checkReqAssets (c : Config) (genome asset_key : String) :
    List PItem → Except Err Unit
  | [] => .ok ()
  | ra :: rest =>
    match get_asset c genome ra.item ra.tag ra.subitem with
    | .error (.missingGenome _) =>
      .error (.valueError (errorReqTemplate ra.render asset_key))
    | .error e => .error e
    | .ok none => .error (.valueError (errorReqTemplate ra.render asset_key))
    | .ok (some _) => checkReqAssets c genome asset_key rest

/-- refgenie_initg (lines 265-293): record the collection checksum on the
genome record, persist, then write the per-sequence digest TSV side file
when the genome directory is writable. -/
def refgenie_initg (ctx : Ctx) (c : Config) (genome coll : String)
    (_contents : AList String String) : Config × List Effect :=
  let c1 := updateGenomes c genome coll
  (c1, [Effect.write c1] ++
    (if ctx.genomeDirWritable then [Effect.digestsFile genome] else []))

/-- Stepwise result of one build-loop iteration: proceed to the next
entry, stop the whole build (the checksum-mismatch return), or a raised
exception aborting the batch. -/
inductive BuildStep where
  | proceed
  | stopChecksum
  | errored (e : Err)
deriving DecidableEq

/-- build_asset (lines 324-375): populate the command templates, create
the output directory, append the completion-marker command, hand the
sequence to the command runner, then register description, path, seek
keys, the directory digest and the default pointer, and persist. A
non-zero exit from the runner is fatal with no store mutation. -/
def build_asset (ctx : Ctx) (c : Config) (genome asset_key tag : String)
    (pkg : Recipe) (outfolder : String) : BuildStep × Config × List Effect :=
  let asset_outfolder := joinP [outfolder, asset_key, tag]
  let target := joinP [asset_outfolder, "build_complete.flag"]
  let preEffs := [Effect.makeDir asset_outfolder, Effect.run target]
  if ctx.runnerOk target then
    let c1 := updateAssets c genome asset_key pkg.desc
    let c2 := updateTags c1 genome asset_key tag
      (fun tr => { tr with path := some asset_key })
    let c3 := updateSeekKeys c2 genome asset_key tag
      (pkg.assets.map (fun kv => (some kv.1, kv.2)))
    let digPath :=
      match get_asset c3 genome asset_key (some tag) none with
      | .ok (some p) => p
      | _ => ""
    let c4 := updateTags c3 genome asset_key tag
      (fun tr => { tr with checksum := some (ctx.digestOf digPath) })
    let c5 := setDefaultPointer c4 genome asset_key tag
    (.proceed, c5, preEffs ++ [Effect.write c5])
  else
    (.errored (.runFailed target), c, preEffs)

/-- One iteration of the refgenie_build loop (lines 388-456): look up the
recipe (an absent recipe is a warn-and-skip), resolve parent tags and
inputs, verify required inputs and parents, run the fasta genome
initialization gate (aborting the whole build on a divergent collection
checksum), build the asset, then record the parent and child relatives
and persist. -/
def buildOne (ctx : Ctx) (genome outfolder : String) (c : Config)
    (a : ParsedAsset) : BuildStep × Config × List Effect :=
  let asset_key := a.asset
  let asset_tag := a.tag.getD (get_default_tag c genome a.asset false)
  match alistFind asset_key ctx.catalog with
  | none => (.proceed, c, [])
  | some pkg =>
    match resolveParents ctx c genome pkg.reqAssets pkg.reqAssets with
    | .error e => (.errored e, c, [])
    | .ok (_inputAssets, parentAssets) =>
      match checkInputs ctx asset_key pkg.reqIn with
      | .error e => (.errored e, c, [])
      | .ok _ =>
        match checkReqAssets c genome asset_key pkg.reqAssets with
        | .error e => (.errored e, c, [])
        | .ok _ =>
          let gateRes : Option (Config × List Effect) :=
            if asset_key = "fasta" then
              let ck := ctx.fastaChecksum ((ctx.specific "fasta").getD "")
              match (findGenome c genome).bind (fun gr => gr.checksum) with
              | some rc =>
                if ck.1 ≠ rc then none
                else some (refgenie_initg ctx c genome ck.1 ck.2)
              | none => some (refgenie_initg ctx c genome ck.1 ck.2)
            else some (c, [])
          match gateRes with
          | none => (.stopChecksum, c, [])
          | some (c1, effs1) =>
            match build_asset ctx c1 genome asset_key asset_tag pkg outfolder with
            | (.errored e, c2, effs2) => (.errored e, c2, effs1 ++ effs2)
            | (_, c2, effs2) =>
              let c3 := updateRelatives c2 genome asset_key asset_tag
                (parentAssets.map (fun pt => pt.1 ++ ":" ++ pt.2)) false
              let c4 := parentAssets.foldl
                (fun cc pt =>
                  updateRelatives cc genome pt.1 pt.2
                    [asset_key ++ ":" ++ asset_tag] true) c3
              (.proceed, c4, effs1 ++ effs2 ++ [Effect.write c4])

/-- The build loop over the requested assets, in caller order: a proceed
continues with the next entry, while a checksum stop or a raised
exception aborts the batch, keeping the effects already performed. -/
def processAssets (ctx : Ctx) (genome outfolder : String) :
    Config → List ParsedAsset → BuildStep × Config × List Effect
  | c, [] => (.proceed, c, [])
  | c, a :: rest =>
    match buildOne ctx genome outfolder c a with
    | (.proceed, c1, effs1) =>
      match processAssets ctx genome outfolder c1 rest with
      | (r, c2, effs2) => (r, c2, effs1 ++ effs2)
    | (r, c1, effs1) => (r, c1, effs1)

inductive BuildOutcome where
  | completed
  | stoppedChecksum
  | permissionDenied
  | errored (e : Err)
deriving DecidableEq

/-- refgenie_build (lines 296-458): return early when the output folder is
not writable, otherwise process the requested assets of the one genome in
caller-given order. -/
def refgenie_build (ctx : Ctx) (c : Config) (genome : String)
    (assetList : List ParsedAsset) : BuildOutcome × Config × List Effect :=
  let outfolder := joinP [ctx.outfolder.getD c.genomeFolder, genome]
  if ctx.writable then
    match processAssets ctx genome outfolder c assetList with
    | (.proceed, c1, effs) => (.completed, c1, effs)
    | (.stopChecksum, c1, effs) => (.stoppedChecksum, c1, effs)
    | (.errored e, c1, effs) => (.errored e, c1, effs)
  else (.permissionDenied, c, [])

/-- refgenie_add (lines 226-262): resolve the target tag, copy the source
file or tree into the tag location (whole tree when no seek key was
given, single file otherwise), then record the path, the seek key — the
parsed seek-key field itself, possibly absent, is used as the mapping
key — and the default pointer, and persist. An absent source path raises
OSError. -/
def refgenie_add (ctx : Ctx) (c : Config) (a : ParsedAsset) (path : String) :
    Except Err (Config × List Effect) :=
  let g := a.genome.getD ""
  let tag := a.tag.getD (get_default_tag c g a.asset true)
  let outfolder := joinP [c.genomeFolder, g]
  let absAssetPath := joinP [outfolder, path]
  let tagPath :=
    if a.seek_key.isNone then joinP [absAssetPath, tag]
    else joinP [parentDir absAssetPath, tag]
  if ctx.pathExists absAssetPath then
    let effs := (if ctx.pathExists tagPath then [] else [Effect.makeDir tagPath])
      ++ [Effect.copy absAssetPath tagPath]
    let c1 := updateTags c g a.asset tag (fun tr =>
      { tr with path := some (if ctx.isDir path then path else parentDir path) })
    let seekVal := if a.seek_key.isNone then "." else baseName absAssetPath
    let c2 := updateSeekKeys c1 g a.asset tag [(a.seek_key, seekVal)]
    let c3 := setDefaultPointer c2 g a.asset tag
    .ok (c3, effs ++ [Effect.write c3])
  else
    .error (.osError ("Absolute path " ++ absAssetPath ++ " does not exist."))

/-- How one invocation terminates: a normal or explicit sys.exit with its
code, or an uncaught Python exception (whose process exit status is 1). -/
inductive Outcome where
  | exit (code : Nat)
  | errored (e : Err)
deriving DecidableEq

def Outcome.code : Outcome → Nat
  | .exit n => n
  | .errored _ => 1

/-- Lines 568-580 of main: give every parsed asset a genome. A missing
genome falls back to the batch-level genome argument, whose absence is a
fatal usage error (exit 1); a genome supplied both ways that disagrees
takes the warn branch, whose message formatting subscripts the parsed
dict at the key "name" — not among the parse_registry_path keys — so a
KeyError is raised before the warning is ever emitted. -/
def reconcileGenome (argsGenome : Option String) (a : ParsedAsset) :
    Except Outcome ParsedAsset :=
  match a.genome with
  | none =>
    match argsGenome with
    | some g => .ok { a with genome := some g }
    | none => .error (.exit 1)
  | some g =>
    match argsGenome with
    | some g2 =>
      if g2 ≠ g then
        if "name" ∈ parsedKeys then .ok a
        else .error (.errored (.keyError "name"))
      else .ok a
    | none => .ok a

def reconcileList (argsGenome : Option String) :
    List ParsedAsset → Except Outcome (List ParsedAsset)
  | [] => .ok []
  | a :: rest =>
    match reconcileGenome argsGenome a with
    | .error o => .error o
    | .ok a1 =>
      match reconcileList argsGenome rest with
      | .error o => .error o
      | .ok rest1 => .ok (a1 :: rest1)

/-- Result of the remove pre-check loop (lines 643-658): fall through with
the resolved tags, stop after removing an incomplete bundle, stop after a
failed lookup, or raise. -/
inductive PrecheckRes where
  | proceed (resolved : List ParsedAsset)
  | removedIncomplete (g a t : String)
  | missingStop
  | failed (e : Err)
deriving DecidableEq

/-- Lines 643-658 of main: per requested asset, resolve the tag (a
fallback label is allowed since the bundle need not exist), reject
seek-keyed addresses, then: an incomplete bundle is removed from the
metadata only and the command returns; a bundle whose lookup raises
(genome or asset not in the registry) makes the command return with
nothing done. -/
def removePrecheck (c : Config) : List ParsedAsset → PrecheckRes
  | [] => .proceed []
  | a :: rest =>
    let g := a.genome.getD ""
    let t := a.tag.getD (get_default_tag c g a.asset false)
    if a.seek_key.isSome then
      .failed (.notImplemented "You can not remove a specific seek_key within an asset.")
    else
      match is_asset_complete c g a.asset t with
      | .error _ => .missingStop
      | .ok false => .removedIncomplete g a.asset t
      | .ok true =>
        match get_asset c g a.asset (some t) none with
        | .error _ => .missingStop
        | .ok _ =>
          match removePrecheck c rest with
          | .proceed others => .proceed ({ a with tag := some t } :: others)
          | r => r

/-- Lines 669-707 of main: delete one confirmed bundle: remove the tag
directory and the bundle metadata, then cascade — re-checking directory
basenames against the registry keys — to the asset directory when the
asset entry is gone, and to the genome directory and genome entry when
the genome has no assets left. -/
def removeDeleteOne (ctx : Ctx) (c : Config) (a : ParsedAsset) :
    Except Err (Config × List Effect) :=
  let g := a.genome.getD ""
  let t := a.tag.getD ""
  match get_asset c g a.asset a.tag none with
  | .error e => .error e
  | .ok none => .error .typeError
  | .ok (some assetPath) =>
    let step1 :=
      if ctx.pathExists assetPath then
        let cc := removeAssets c g a.asset t
        (cc, [Effect.removePath assetPath, Effect.write cc])
      else (c, ([] : List Effect))
    match step1 with
    | (c1, effs1) =>
      if (findAsset c1 g a.asset).isSome then
        .ok (c1, effs1 ++ [Effect.write c1])
      else
        let assetDir := parentDir assetPath
        let effs2 :=
          if baseName assetDir = a.asset then [Effect.removePath assetDir] else []
        if (match findGenome c1 g with
            | some gr => !gr.assets.isEmpty
            | none => false) then
          .ok (c1, effs1 ++ effs2)
        else
          let genomeDir := parentDir assetDir
          let effs3 :=
            if baseName genomeDir = g then [Effect.removePath genomeDir] else []
          match findGenome c1 g with
          | some _ =>
            let c2 := { c1 with genomes := alistRemove g c1.genomes }
            .ok (c2, effs1 ++ effs2 ++ effs3 ++ [Effect.write c2])
          | none => .ok (c1, effs1 ++ effs2 ++ effs3)

/-- The deletion loop over the confirmed batch, keeping effects already
performed when an exception aborts it. -/
def removeDeleteLoop (ctx : Ctx) :
    Config → List ParsedAsset → Option Err × Config × List Effect
  | c, [] => (none, c, [])
  | c, a :: rest =>
    match removeDeleteOne ctx c a with
    | .error e => (some e, c, [])
    | .ok (c1, effs1) =>
      match removeDeleteLoop ctx c1 rest with
      | (r, c2, effs2) => (r, c2, effs1 ++ effs2)

/-- The remove command branch of main (lines 642-707): pre-check every
requested bundle, then prompt once (per batch or for the single bundle)
and delete. -/
def removeCommand (ctx : Ctx) (c : Config) (assetList : List ParsedAsset) :
    Outcome × Config × List Effect :=
  match removePrecheck c assetList with
  | .failed e => (.errored e, c, [])
  | .missingStop => (.exit 0, c, [])
  | .removedIncomplete g a t =>
    let c1 := removeAssets c g a t
    (.exit 0, c1, [Effect.write c1])
  | .proceed resolved =>
    let msg :=
      if resolved.length > 1 then
        "Are you sure you want to remove " ++ toString resolved.length ++ " assets?"
      else "Remove the asset?"
    if ctx.promptYes then
      match removeDeleteLoop ctx c resolved with
      | (some e, c1, effs) => (.errored e, c1, Effect.prompt msg :: effs)
      | (none, c1, effs) => (.exit 0, c1, Effect.prompt msg :: effs)
    else (.exit 0, c, [Effect.prompt msg])

/-- The tag command branch of main (lines 709-728). The variable holding
the asset is the leftover of the genome-reconciliation loop, which for
the enforced single-asset batch is its only element. The source tag field
is passed to the store rename unresolved; a failed metadata rename exits
0 silently with nothing changed. On success the tag directory is renamed
(an absent original directory is only a warning), the old bundle entry is
dropped, and the configuration is persisted. -/
def tagCommand (ctx : Ctx) (c : Config) (assetList : List ParsedAsset)
    (newTag : String) : Outcome × Config × List Effect :=
  match assetList with
  | [a] =>
    let g := a.genome.getD ""
    match get_asset c g a.asset a.tag none with
    | .error e => (.errored e, c, [])
    | .ok none => (.errored .typeError, c, [])
    | .ok (some oriPath) =>
      let newPath := joinP [parentDir oriPath, newTag]
      match tag_asset c g a.asset a.tag newTag with
      | none => (.exit 0, c, [])
      | some c1 =>
        if ctx.pathExists oriPath then
          let effs :=
            (if ctx.pathExists newPath then [Effect.removePath newPath] else [])
              ++ [Effect.rename oriPath newPath]
          let c2 := removeAssets c1 g a.asset (a.tag.getD "")
          (.exit 0, c2, effs ++ [Effect.write c2])
        else
          (.exit 0, c1, [Effect.write c1])
  | _ => (.errored (.notImplemented "Can only tag 1 asset at a time"), c, [])

/-- The seek command branch of main (lines 604-608): print each requested
path; a lookup exception aborts the loop. -/
def seekCommand (c : Config) : List ParsedAsset → Outcome × Config × List Effect
  | [] => (.exit 0, c, [])
  | a :: rest =>
    match get_asset c (a.genome.getD "") a.asset a.tag a.seek_key with
    | .error e => (.errored e, c, [])
    | .ok _ => seekCommand c rest

inductive Command where
  | build
  | seek
  | add
  | remove
  | tag
deriving DecidableEq

/-- The dispatch of main (lines 538-728) for the embedded commands, after
configuration loading: the genome reconciliation over the parsed registry
paths runs first for every command, then the per-command branch. The
build command additionally enforces a single genome per batch (exit 1). -/
def mainRun (ctx : Ctx) (c : Config) (cmd : Command) (argsGenome : Option String)
    (paths : List ParsedAsset) (addPath : String) (newTag : String) :
    Outcome × Config × List Effect :=
  match reconcileList argsGenome paths with
  | .error o => (o, c, [])
  | .ok resolved =>
    match cmd with
    | .build =>
      let g0 := (resolved.head?.bind (fun x => x.genome)).getD ""
      if resolved.all (fun x => x.genome = some g0) then
        match refgenie_build ctx c g0 resolved with
        | (.errored e, c1, effs) => (.errored e, c1, effs)
        | (_, c1, effs) => (.exit 0, c1, effs)
      else (.exit 1, c, [])
    | .seek => seekCommand c resolved
    | .add =>
      if resolved.length > 1 then
        (.errored (.notImplemented "Can only add 1 asset at a time"), c, [])
      else
        match resolved.head? with
        | none => (.exit 0, c, [])
        | some a =>
          match refgenie_add ctx c a addPath with
          | .error e => (.errored e, c, [])
          | .ok (c1, effs) => (.exit 0, c1, effs)
    | .remove => removeCommand ctx c resolved
    | .tag => tagCommand ctx c resolved newTag

theorem processAssets_cons (ctx : Ctx) (genome outfolder : String)
    (c : Config) (a : ParsedAsset) (rest : List ParsedAsset) :
    processAssets ctx genome outfolder c (a :: rest) =
      match buildOne ctx genome outfolder c a with
      | (.proceed, c1, effs1) =>
        match processAssets ctx genome outfolder c1 rest with
        | (r, c2, effs2) => (r, c2, effs1 ++ effs2)
      | (r, c1, effs1) => (r, c1, effs1) := rfl

/-- C6: a build-batch entry whose asset name has no exact-match recipe in
the catalog is skipped with a non-fatal warning: the iteration leaves the
configuration unchanged, performs no effect (no store write, no command
execution), and the batch continues with the remaining entries. -/
theorem unknown_asset_entry_skipped (ctx : Ctx) (genome outfolder : String)
    (c : Config) (a : ParsedAsset) (rest : List ParsedAsset)
    (h : alistFind a.asset ctx.catalog = none) :
    buildOne ctx genome outfolder c a = (.proceed, c, []) ∧
    processAssets ctx genome outfolder c (a :: rest) =
      processAssets ctx genome outfolder c rest := by
  have h1 : buildOne ctx genome outfolder c a = (.proceed, c, []) := by
    simp only [buildOne, h]
  refine ⟨h1, ?_⟩
  rw [processAssets_cons, h1]
  rcases hr : processAssets ctx genome outfolder c rest with ⟨r, c2, e2⟩
  simp [hr]

/-- Witness for C6 at a concrete empty catalog. -/
theorem unknown_asset_entry_skipped_witness :
    alistFind "unknown" ({} : Ctx).catalog = none ∧
    buildOne {} "hg38" "/genomes/hg38" { genomeFolder := "/genomes" }
        { genome := some "hg38", asset := "unknown" } =
      (.proceed, { genomeFolder := "/genomes" }, []) :=
  ⟨rfl, (unknown_asset_entry_skipped {} "hg38" "/genomes/hg38"
    { genomeFolder := "/genomes" } { genome := some "hg38", asset := "unknown" }
    [] rfl).1⟩

/-- C7: a single-asset tag operation whose metadata rename fails (the
source tag is absent from the store) is a silent success no-op: exit code
0, no store write, no directory rename, configuration unchanged. -/
theorem tag_missing_source_silent_noop (ctx : Ctx) (c : Config)
    (a : ParsedAsset) (newTag p : String)
    (hget : get_asset c (a.genome.getD "") a.asset a.tag none = .ok (some p))
    (hfail : tag_asset c (a.genome.getD "") a.asset a.tag newTag = none) :
    tagCommand ctx c [a] newTag = (.exit 0, c, []) := by
  simp only [tagCommand, hget, hfail]

/-- Witness for C7: the asset exists with a default tag, but the requested
source tag v9 is not recorded, so the rename is refused. -/
theorem tag_missing_source_silent_noop_witness :
    tagCommand {}
        { genomeFolder := "/genomes",
          genomes := [("hg38", { assets :=
            [("fasta", { defaultTag := some "default",
                         tags := [("default", {})] })] })] }
        [{ genome := some "hg38", asset := "fasta", tag := some "v9" }] "v2" =
      (.exit 0,
        { genomeFolder := "/genomes",
          genomes := [("hg38", { assets :=
            [("fasta", { defaultTag := some "default",
                         tags := [("default", {})] })] })] }, []) :=
  tag_missing_source_silent_noop {} _ _ "v2" "/genomes/hg38/fasta/v9" rfl rfl

/-- The concrete add scenario for C2: a registry path with no seek-key. -/
def addEntry : ParsedAsset :=
  { genome := some "hg38", asset := "bwa_index", seek_key := none, tag := some "v1" }

/-- C2 (failing evaluation): refgenie_add with no seek-key records the
seek-key table entry of the new tag record under the absent (None)
seek-key name with value ".", so the record holds no seek key named ".":
looking the name "." up in the produced seek-key table yields nothing. -/
theorem add_no_seek_key_records_none_named_entry :
    ((refgenie_add {} { genomeFolder := "/genomes" } addEntry
          "bwa_index").toOption.map Prod.fst).bind
        (fun c1 => findTag c1 "hg38" "bwa_index" "v1") =
      some { path := some "bwa_index", seekKeys := [(none, ".")] } ∧
    (((refgenie_add {} { genomeFolder := "/genomes" } addEntry
          "bwa_index").toOption.map Prod.fst).bind
        (fun c1 => findTag c1 "hg38" "bwa_index" "v1")).map
      (fun tr => alistFind (some ".") tr.seekKeys) = some none := ⟨rfl, rfl⟩

theorem processAssets_append (ctx : Ctx) (genome outfolder : String)
    (l₁ : List ParsedAsset) :
    ∀ (c c1 : Config) (effs : List Effect) (l₂ : List ParsedAsset),
      processAssets ctx genome outfolder c l₁ = (.proceed, c1, effs) →
      processAssets ctx genome outfolder c (l₁ ++ l₂) =
        ((processAssets ctx genome outfolder c1 l₂).1,
         (processAssets ctx genome outfolder c1 l₂).2.1,
         effs ++ (processAssets ctx genome outfolder c1 l₂).2.2) := by
  induction l₁ with
  | nil =>
    intro c c1 effs l₂ h
    simp only [processAssets] at h
    rcases h with ⟨rfl, rfl⟩
    simp
  | cons a rest ih =>
    intro c c1 effs l₂ h
    rw [processAssets_cons] at h
    rw [List.cons_append, processAssets_cons]
    rcases hb : buildOne ctx genome outfolder c a with ⟨rb, cb, eb⟩
    rw [hb] at h
    cases rb with
    | proceed =>
      dsimp only at h ⊢
      rcases hrec : processAssets ctx genome outfolder cb rest with ⟨r2, c2, e2⟩
      rw [hrec] at h
      simp only [Prod.mk.injEq] at h
      obtain ⟨h1, h2, h3⟩ := h
      subst h1
      rw [← h2, ← h3]
      rw [ih cb c2 e2 l₂ hrec]
      dsimp only
      simp [List.append_assoc]
    | stopChecksum => exact absurd (congrArg Prod.fst h) (by simp)
    | errored e => exact absurd (congrArg Prod.fst h) (by simp)

theorem buildOne_fasta_mismatch (ctx : Ctx) (genome outfolder : String)
    (c : Config) (a : ParsedAsset) (pkg : Recipe) (rc : String)
    (ha : a.asset = "fasta")
    (hpkg : alistFind "fasta" ctx.catalog = some pkg)
    (hnopar : pkg.reqAssets = [])
    (hin : checkInputs ctx "fasta" pkg.reqIn = .ok ())
    (hrec : (findGenome c genome).bind (fun gr => gr.checksum) = some rc)
    (hne : (ctx.fastaChecksum ((ctx.specific "fasta").getD "")).1 ≠ rc) :
    buildOne ctx genome outfolder c a = (.stopChecksum, c, []) := by
  simp only [buildOne, ha, hpkg, hnopar, resolveParents, checkReqAssets, hin,
    hrec, if_pos rfl]
  simp [hne]

/-- C1: in a build batch whose fasta entry addresses a genome that, when
the entry is reached, carries a recorded collection checksum different
from the one computed from the supplied fasta, refgenie_build returns at
the checksum gate: the fasta iteration adds nothing — no genome-record
update, no asset registration, no relatives update, no store write — the
state and effect trace stay exactly those of the preceding entries, and
the remaining batch entries are never processed. -/
theorem fasta_checksum_mismatch_aborts_build (ctx : Ctx) (c c1 : Config)
    (genome : String) (pre post : List ParsedAsset) (fe : ParsedAsset)
    (effs : List Effect) (pkg : Recipe) (rc : String)
    (hw : ctx.writable = true)
    (hpre : processAssets ctx genome
      (joinP [ctx.outfolder.getD c.genomeFolder, genome]) c pre =
      (.proceed, c1, effs))
    (ha : fe.asset = "fasta")
    (hpkg : alistFind "fasta" ctx.catalog = some pkg)
    (hnopar : pkg.reqAssets = [])
    (hin : checkInputs ctx "fasta" pkg.reqIn = .ok ())
    (hrec : (findGenome c1 genome).bind (fun gr => gr.checksum) = some rc)
    (hne : (ctx.fastaChecksum ((ctx.specific "fasta").getD "")).1 ≠ rc) :
    refgenie_build ctx c genome (pre ++ fe :: post) =
      (.stoppedChecksum, c1, effs) := by
  unfold refgenie_build
  rw [if_pos (by rw [hw])]
  rw [processAssets_append ctx genome _ pre c c1 effs (fe :: post) hpre]
  rw [processAssets_cons,
    buildOne_fasta_mismatch ctx genome _ c1 fe pkg rc ha hpkg hnopar hin hrec hne]
  simp

/-- The concrete context of the C1 witness: a catalog holding the fasta
recipe, a supplied fasta path and a sequence checksum collaborator
returning NEWSUM. -/
def ctxC1 : Ctx :=
  { catalog := [("fasta", { desc := "fa", reqIn := ["fasta"] })],
    specific := fun k => if k = "fasta" then some "/in.fa" else none,
    fastaChecksum := fun _ => ("NEWSUM", [("chr1", "x")]) }

/-- The concrete store of the C1 witness: the genome is already recorded
with collection checksum OLDSUM. -/
def cfgC1 : Config :=
  { genomeFolder := "/genomes",
    genomes := [("hg38", { checksum := some "OLDSUM" })] }

/-- Witness for C1: a second fasta build against a genome recorded with
checksum OLDSUM while the supplied fasta digests to NEWSUM. -/
theorem fasta_checksum_mismatch_aborts_build_witness :
    refgenie_build ctxC1 cfgC1 "hg38" [{ genome := some "hg38", asset := "fasta" }] =
      (.stoppedChecksum, cfgC1, []) := by
  have h := fasta_checksum_mismatch_aborts_build ctxC1 cfgC1 cfgC1 "hg38" [] []
    { genome := some "hg38", asset := "fasta" } [] { desc := "fa", reqIn := ["fasta"] }
    "OLDSUM" rfl rfl rfl rfl rfl rfl rfl (by decide)
  simpa using h

theorem get_asset_ok_of_genome (c : Config) (g a : String) (t : Option String)
    (gr : GenomeRecord) (hg : findGenome c g = some gr) :
    ∃ v, get_asset c g a t none = .ok v := by
  simp only [get_asset, hg]
  rcases hfind : alistFind a gr.assets with _ | ar
  · exact ⟨none, rfl⟩
  · exact ⟨_, rfl⟩

theorem get_asset_some_of_asset (c : Config) (g a : String) (t : Option String)
    (gr : GenomeRecord) (ar : AssetRecord) (hg : findGenome c g = some gr)
    (ha : alistFind a gr.assets = some ar) :
    ∃ p, get_asset c g a t none = .ok (some p) := by
  simp only [get_asset, hg, ha]
  exact ⟨_, rfl⟩

theorem get_asset_none_of_missing (c : Config) (g a : String)
    (t sk : Option String) (gr : GenomeRecord) (hg : findGenome c g = some gr)
    (ha : alistFind a gr.assets = none) :
    get_asset c g a t sk = .ok none := by
  simp only [get_asset, hg, ha]

theorem resolveParents_ok_of_genome (ctx : Ctx) (c : Config) (genome : String)
    (gr : GenomeRecord) (allReq : List PItem)
    (htags : ctx.tagsArg = none)
    (hg : findGenome c genome = some gr) :
    ∀ l : List PItem, (∀ r ∈ l, r.subitem = none) →
      ∃ ps, resolveParents ctx c genome allReq l = .ok ps := by
  intro l
  induction l with
  | nil => exact fun _ => ⟨([], []), rfl⟩
  | cons ra rest ih =>
    intro hsub
    obtain ⟨⟨ias, pas⟩, hps⟩ := ih (fun r hr => hsub r (List.mem_cons_of_mem ra hr))
    obtain ⟨v, hv⟩ := get_asset_ok_of_genome c genome ra.item
      (some (get_default_tag c genome ra.item true)) gr hg
    have hstep : resolveParentDefault c genome ra =
        .ok ((ra.item, v), (ra.item, get_default_tag c genome ra.item true)) := by
      simp only [resolveParentDefault, hsub ra (List.mem_cons_self ra rest), hv]
    refine ⟨((ra.item, v) :: ias, (ra.item, get_default_tag c genome ra.item true) :: pas), ?_⟩
    simp only [resolveParents, htags, hstep, hps]

theorem checkReqAssets_first_missing (c : Config) (genome ak : String)
    (gr : GenomeRecord) (hg : findGenome c genome = some gr)
    (ras₁ : List PItem) (ra : PItem) (ras₂ : List PItem)
    (hsub₁ : ∀ r ∈ ras₁, r.subitem = none)
    (hpass : ∀ r ∈ ras₁, (alistFind r.item gr.assets).isSome)
    (hmiss : alistFind ra.item gr.assets = none) :
    checkReqAssets c genome ak (ras₁ ++ ra :: ras₂) =
      .error (.valueError (errorReqTemplate ra.render ak)) := by
  induction ras₁ with
  | nil =>
    rw [List.nil_append]
    unfold checkReqAssets
    rw [get_asset_none_of_missing c genome ra.item ra.tag ra.subitem gr hg hmiss]
  | cons r rest ih =>
    have hr : (alistFind r.item gr.assets).isSome :=
      hpass r (List.mem_cons_self r rest)
    obtain ⟨ar, har⟩ := Option.isSome_iff_exists.mp hr
    obtain ⟨p, hp⟩ := get_asset_some_of_asset c genome r.item r.tag gr ar hg har
    rw [List.cons_append]
    unfold checkReqAssets
    rw [hsub₁ r (List.mem_cons_self r rest), hp]
    exact ih (fun x hx => hsub₁ x (List.mem_cons_of_mem r hx))
      (fun x hx => hpass x (List.mem_cons_of_mem r hx))

/-- The concrete build context of the C4 counterexample and witness: a
catalog with a bowtie2_index recipe declaring the parent asset fasta. -/
def ctxC4 : Ctx :=
  { catalog := [("bowtie2_index",
      { desc := "bt2", reqIn := [], reqAssets := [{ item := "fasta" }] })] }

/-- An empty registry: the genome record itself is absent. -/
def cfgC4 : Config := { genomeFolder := "/genomes", genomes := [] }

/-- The requested build entry of the C4 scenario. -/
def paC4 : ParsedAsset := { genome := some "hg38", asset := "bowtie2_index" }

/-- C4 (counterexample): with the genome record itself absent, the declared
parent fasta is wholly missing from the registry, yet the build batch
aborts with the MissingGenomeError raised by the store fetch inside the
parent-resolution loop (lines 401-418), whose message names the genome —
not with the requirement ValueError of lines 426-433 that names both the
missing parent and the asset being built. -/
theorem missing_parent_error_counterexample :
    refgenie_build ctxC4 cfgC4 "hg38" [paC4] =
      (.errored (.missingGenome "hg38"), cfgC4, []) ∧
    Err.missingGenome "hg38" ≠
      Err.valueError (errorReqTemplate "fasta" "bowtie2_index") :=
  ⟨rfl, by decide⟩

/-- C4 (amended): during a build, a declared parent asset missing from a
registry that does hold the genome record — with the required raw inputs
supplied and no tag overrides — raises the fatal requirement ValueError
whose message names both the missing parent and the asset being built,
and the whole batch aborts with the configuration unchanged and no
effects (in particular no store write) for the failing asset; when the
genome record itself is absent the batch also aborts with nothing
written, but through a missing-genome error naming only the genome. -/
theorem missing_parent_fatal_naming_both (ctx : Ctx) (genome outfolder : String)
    (c : Config) (a : ParsedAsset) (pkg : Recipe) (gr : GenomeRecord)
    (ras₁ : List PItem) (ra : PItem) (ras₂ : List PItem) (rest : List ParsedAsset)
    (htags : ctx.tagsArg = none)
    (hg : findGenome c genome = some gr)
    (hpkg : alistFind a.asset ctx.catalog = some pkg)
    (hsplit : pkg.reqAssets = ras₁ ++ ra :: ras₂)
    (hsub : ∀ r ∈ pkg.reqAssets, r.subitem = none)
    (hpass : ∀ r ∈ ras₁, (alistFind r.item gr.assets).isSome)
    (hmiss : alistFind ra.item gr.assets = none)
    (hin : checkInputs ctx a.asset pkg.reqIn = .ok ()) :
    buildOne ctx genome outfolder c a =
      (.errored (.valueError (errorReqTemplate ra.render a.asset)), c, []) ∧
    processAssets ctx genome outfolder c (a :: rest) =
      (.errored (.valueError (errorReqTemplate ra.render a.asset)), c, []) := by
  obtain ⟨⟨ias, pas⟩, hps⟩ := resolveParents_ok_of_genome ctx c genome gr
    pkg.reqAssets htags hg pkg.reqAssets hsub
  have hchk : checkReqAssets c genome a.asset pkg.reqAssets =
      .error (.valueError (errorReqTemplate ra.render a.asset)) := by
    rw [hsplit]
    exact checkReqAssets_first_missing c genome a.asset gr hg ras₁ ra ras₂
      (fun r hr => hsub r (by rw [hsplit]; exact List.mem_append_left _ hr))
      hpass hmiss
  have h1 : buildOne ctx genome outfolder c a =
      (.errored (.valueError (errorReqTemplate ra.render a.asset)), c, []) := by
    simp only [buildOne, hpkg, hps, hin, hchk]
  refine ⟨h1, ?_⟩
  rw [processAssets_cons, h1]

/-- Witness for the amended C4: the genome exists but holds no assets, so
the declared parent fasta of bowtie2_index is missing; the batch aborts
with the requirement error naming both assets, no effects. -/
theorem missing_parent_fatal_naming_both_witness :
    buildOne ctxC4 "hg38" "/genomes/hg38"
        { genomeFolder := "/genomes", genomes := [("hg38", {})] } paC4 =
      (.errored (.valueError (errorReqTemplate "fasta" "bowtie2_index")),
        { genomeFolder := "/genomes", genomes := [("hg38", {})] }, []) :=
  (missing_parent_fatal_naming_both ctxC4 "hg38" "/genomes/hg38"
    { genomeFolder := "/genomes", genomes := [("hg38", {})] } paC4
    { desc := "bt2", reqIn := [], reqAssets := [{ item := "fasta" }] } {}
    [] { item := "fasta" } [] []
    rfl rfl rfl rfl (by intro r hr; simp at hr; rw [hr])
    (by intro r hr; exact absurd hr (List.not_mem_nil r)) rfl rfl).1

theorem reconcileList_conflict (g2 : String) :
    ∀ (paths : List ParsedAsset) (a : ParsedAsset) (g : String),
      a ∈ paths → a.genome = some g → g2 ≠ g →
      ∃ o : Outcome, reconcileList (some g2) paths = .error o ∧ o.code = 1 := by
  intro paths
  induction paths with
  | nil => intro a g ha _ _; exact absurd ha (List.not_mem_nil a)
  | cons b rest ih =>
    intro a g ha hag hne
    rcases hb : b.genome with _ | gb
    · have hmem : a ∈ rest := by
        rcases List.mem_cons.mp ha with h | h
        · rw [h, hb] at hag; exact absurd hag (by simp)
        · exact h
      obtain ⟨o, ho, hcode⟩ := ih a g hmem hag hne
      refine ⟨o, ?_, hcode⟩
      simp only [reconcileList, reconcileGenome, hb, ho]
    · by_cases hgb : g2 = gb
      · subst hgb
        have hmem : a ∈ rest := by
          rcases List.mem_cons.mp ha with h | h
          · rw [h, hb] at hag
            exact absurd (Option.some.inj hag) hne
          · exact h
        obtain ⟨o, ho, hcode⟩ := ih a g hmem hag hne
        refine ⟨o, ?_, hcode⟩
        simp only [reconcileList, reconcileGenome, hb, ne_eq,
          not_true_eq_false, if_false, ho]
      · refine ⟨.errored (.keyError "name"), ?_, rfl⟩
        simp only [reconcileList, reconcileGenome, hb, ne_eq, hgb,
          not_false_eq_true, if_true, parsedKeys]
        simp

/-- C3: a batch in which some registry path carries a genome while the
batch-level genome argument names a different one terminates with process
exit code 1 before performing the requested operation: the configuration
is untouched and the effect trace is empty, for every embedded command.
The failure is raised inside the reconciliation loop (lines 568-580),
before any command branch runs: the divergent-genome warn branch
subscripts the parsed dict at the missing key name, so the uncaught
KeyError aborts the process (exit status 1). -/
theorem genome_conflict_exits_before_operation (ctx : Ctx) (c : Config)
    (cmd : Command) (paths : List ParsedAsset) (addPath newTag : String)
    (a : ParsedAsset) (g g2 : String)
    (ha : a ∈ paths) (hag : a.genome = some g) (hne : g2 ≠ g) :
    (mainRun ctx c cmd (some g2) paths addPath newTag).1.code = 1 ∧
    (mainRun ctx c cmd (some g2) paths addPath newTag).2.1 = c ∧
    (mainRun ctx c cmd (some g2) paths addPath newTag).2.2 = [] := by
  obtain ⟨o, ho, hcode⟩ := reconcileList_conflict g2 paths a g ha hag hne
  unfold mainRun
  rw [ho]
  exact ⟨hcode, rfl, rfl⟩

/-- Witness for C3: a remove batch addressing hg38/fasta while the genome
argument says mm10. -/
theorem genome_conflict_exits_before_operation_witness :
    (mainRun {} { genomeFolder := "/genomes" } Command.remove (some "mm10")
      [{ genome := some "hg38", asset := "fasta" }] "" "").1.code = 1 ∧
    (mainRun {} { genomeFolder := "/genomes" } Command.remove (some "mm10")
      [{ genome := some "hg38", asset := "fasta" }] "" "").2.1 =
      { genomeFolder := "/genomes" } ∧
    (mainRun {} { genomeFolder := "/genomes" } Command.remove (some "mm10")
      [{ genome := some "hg38", asset := "fasta" }] "" "").2.2 = [] :=
  genome_conflict_exits_before_operation {} { genomeFolder := "/genomes" }
    Command.remove [{ genome := some "hg38", asset := "fasta" }] "" ""
    { genome := some "hg38", asset := "fasta" } "hg38" "mm10"
    (List.mem_cons_self _ _) rfl (by decide)

/-- A requested bundle passes the remove pre-check: it has no seek key, it
is complete, and its lookup succeeds. -/
def precheckPasses (c : Config) (a : ParsedAsset) : Prop :=
  a.seek_key = none ∧
  is_asset_complete c (a.genome.getD "") a.asset
    (a.tag.getD (get_default_tag c (a.genome.getD "") a.asset false)) = .ok true ∧
  ∃ v, get_asset c (a.genome.getD "") a.asset
    (some (a.tag.getD (get_default_tag c (a.genome.getD "") a.asset false)))
    none = .ok v

theorem removePrecheck_cons_pass (c : Config) (a : ParsedAsset)
    (rest : List ParsedAsset) (h : precheckPasses c a) :
    removePrecheck c (a :: rest) =
      match removePrecheck c rest with
      | .proceed others =>
        .proceed ({ a with tag := some (a.tag.getD
          (get_default_tag c (a.genome.getD "") a.asset false)) } :: others)
      | r => r := by
  obtain ⟨hseek, hcomp, v, hget⟩ := h
  simp only [removePrecheck, hseek, Option.isSome_none, Bool.false_eq_true,
    if_false, hcomp, hget]

theorem removePrecheck_append_pass (c : Config) (pre : List ParsedAsset)
    (hpre : ∀ a ∈ pre, precheckPasses c a) (l : List ParsedAsset)
    (hnp : ∀ others, removePrecheck c l ≠ .proceed others) :
    removePrecheck c (pre ++ l) = removePrecheck c l := by
  induction pre with
  | nil => rw [List.nil_append]
  | cons b rest ih =>
    rw [List.cons_append,
      removePrecheck_cons_pass c b _ (hpre b (List.mem_cons_self b rest)),
      ih (fun a ha => hpre a (List.mem_cons_of_mem b ha))]
    rcases hres : removePrecheck c l with others | ⟨g, a, t⟩ | _ | e
    · exact absurd hres (hnp others)
    · rfl
    · rfl
    · rfl

/-- C5: when the remove pre-check scan reaches a requested bundle that
exists but lacks its completion marker — all earlier batch items having
passed the scan — the command removes only that bundle from the registry
metadata, persists the store with that single write, shows no
confirmation prompt, deletes no directory, and stops: the remaining batch
items (arbitrary here) are never processed. -/
theorem remove_incomplete_metadata_only (ctx : Ctx) (c : Config)
    (pre post : List ParsedAsset) (x : ParsedAsset)
    (hpre : ∀ a ∈ pre, precheckPasses c a)
    (hseek : x.seek_key = none)
    (hx : is_asset_complete c (x.genome.getD "") x.asset
      (x.tag.getD (get_default_tag c (x.genome.getD "") x.asset false)) =
      .ok false) :
    removeCommand ctx c (pre ++ x :: post) =
      (.exit 0,
        removeAssets c (x.genome.getD "") x.asset
          (x.tag.getD (get_default_tag c (x.genome.getD "") x.asset false)),
        [Effect.write (removeAssets c (x.genome.getD "") x.asset
          (x.tag.getD (get_default_tag c (x.genome.getD "") x.asset false)))]) := by
  have hx1 : removePrecheck c (x :: post) =
      .removedIncomplete (x.genome.getD "") x.asset
        (x.tag.getD (get_default_tag c (x.genome.getD "") x.asset false)) := by
    simp only [removePrecheck, hseek, Option.isSome_none, Bool.false_eq_true,
      if_false, hx]
  have hall : removePrecheck c (pre ++ x :: post) =
      .removedIncomplete (x.genome.getD "") x.asset
        (x.tag.getD (get_default_tag c (x.genome.getD "") x.asset false)) := by
    rw [removePrecheck_append_pass c pre hpre (x :: post)
      (fun others h => by rw [hx1] at h; exact PrecheckRes.noConfusion h), hx1]
  unfold removeCommand
  rw [hall]

/-- Witness for C5: a two-item batch whose first bundle exists and is
complete while the second addresses an incomplete bundle. -/
theorem remove_incomplete_metadata_only_witness :
    removeCommand {}
        { genomeFolder := "/genomes",
          genomes := [("hg38", { assets :=
            [("fasta", { defaultTag := some "default",
                         tags := [("default", {})] }),
             ("bwa_index", { defaultTag := some "v1",
                             tags := [("v1", { complete := false })] })] })] }
        [{ genome := some "hg38", asset := "fasta" },
         { genome := some "hg38", asset := "bwa_index" }] =
      (.exit 0,
        removeAssets
          { genomeFolder := "/genomes",
            genomes := [("hg38", { assets :=
              [("fasta", { defaultTag := some "default",
                           tags := [("default", {})] }),
               ("bwa_index", { defaultTag := some "v1",
                               tags := [("v1", { complete := false })] })] })] }
          "hg38" "bwa_index" "v1",
        [Effect.write (removeAssets
          { genomeFolder := "/genomes",
            genomes := [("hg38", { assets :=
              [("fasta", { defaultTag := some "default",
                           tags := [("default", {})] }),
               ("bwa_index", { defaultTag := some "v1",
                               tags := [("v1", { complete := false })] })] })] }
          "hg38" "bwa_index" "v1")]) := by
  have h := remove_incomplete_metadata_only {}
    { genomeFolder := "/genomes",
      genomes := [("hg38", { assets :=
        [("fasta", { defaultTag := some "default",
                     tags := [("default", {})] }),
         ("bwa_index", { defaultTag := some "v1",
                         tags := [("v1", { complete := false })] })] })] }
    [{ genome := some "hg38", asset := "fasta" }] []
    { genome := some "hg38", asset := "bwa_index" }
    (by
      intro a ha
      simp only [List.mem_singleton] at ha
      rw [ha]
      exact ⟨rfl, rfl, ⟨"/genomes/hg38/fasta/default", rfl⟩⟩)
    rfl rfl
  simpa using h

/-- C10: when the remove pre-check scan reaches a requested bundle whose
lookup raises because the genome or asset is not in the registry — all
earlier batch items having passed the scan — the whole command returns at
once: no confirmation prompt, no metadata write, no directory deletion,
for any batch item, the existing earlier ones included. -/
theorem remove_missing_lookup_returns_untouched (ctx : Ctx) (c : Config)
    (pre post : List ParsedAsset) (x : ParsedAsset) (e : Err)
    (hpre : ∀ a ∈ pre, precheckPasses c a)
    (hseek : x.seek_key = none)
    (hx : is_asset_complete c (x.genome.getD "") x.asset
      (x.tag.getD (get_default_tag c (x.genome.getD "") x.asset false)) =
      .error e) :
    removeCommand ctx c (pre ++ x :: post) = (.exit 0, c, []) := by
  have hx1 : removePrecheck c (x :: post) = .missingStop := by
    simp only [removePrecheck, hseek, Option.isSome_none, Bool.false_eq_true,
      if_false, hx]
  have hall : removePrecheck c (pre ++ x :: post) = .missingStop := by
    rw [removePrecheck_append_pass c pre hpre (x :: post)
      (fun others h => by rw [hx1] at h; exact PrecheckRes.noConfusion h), hx1]
  unfold removeCommand
  rw [hall]

/-- Witness for C10: the first bundle exists and is complete, the second
addresses an asset absent from the registry; nothing is removed. -/
theorem remove_missing_lookup_returns_untouched_witness :
    removeCommand {}
        { genomeFolder := "/genomes",
          genomes := [("hg38", { assets :=
            [("fasta", { defaultTag := some "default",
                         tags := [("default", {})] })] })] }
        [{ genome := some "hg38", asset := "fasta" },
         { genome := some "hg38", asset := "nope" }] =
      (.exit 0,
        { genomeFolder := "/genomes",
          genomes := [("hg38", { assets :=
            [("fasta", { defaultTag := some "default",
                         tags := [("default", {})] })] })] }, []) := by
  have h := remove_missing_lookup_returns_untouched {}
    { genomeFolder := "/genomes",
      genomes := [("hg38", { assets :=
        [("fasta", { defaultTag := some "default",
                     tags := [("default", {})] })] })] }
    [{ genome := some "hg38", asset := "fasta" }] []
    { genome := some "hg38", asset := "nope" } (.keyError "nope")
    (by
      intro a ha
      simp only [List.mem_singleton] at ha
      rw [ha]
      exact ⟨rfl, rfl, ⟨"/genomes/hg38/fasta/default", rfl⟩⟩)
    rfl rfl
  simpa using h

theorem alistFind_upsert_self {K V : Type} [DecidableEq K] (k : K) (d : V)
    (f : V → V) (l : AList K V) :
    alistFind k (alistUpsert k d f l) = some (f ((alistFind k l).getD d)) := by
  induction l with
  | nil => simp [alistFind, alistUpsert]
  | cons kv rest ih =>
    rcases kv with ⟨k1, v⟩
    by_cases hk : k1 = k
    · subst hk; simp [alistFind, alistUpsert]
    · simp [alistFind, alistUpsert, hk, ih]

theorem alistFind_upsert_other {K V : Type} [DecidableEq K] (k k2 : K)
    (hne : k ≠ k2) (d : V) (f : V → V) (l : AList K V) :
    alistFind k2 (alistUpsert k d f l) = alistFind k2 l := by
  induction l with
  | nil => simp [alistFind, alistUpsert, hne]
  | cons kv rest ih =>
    rcases kv with ⟨k1, v⟩
    by_cases hk : k1 = k
    · subst hk; simp [alistFind, alistUpsert, hne]
    · simp [alistFind, alistUpsert, hk, ih]

/-- The parents list of a tag record, empty when the record is absent. -/
def relParents (c : Config) (g a t : String) : List String :=
  ((findTag c g a t).map (fun tr => tr.parents)).getD []

/-- The children list of a tag record, empty when the record is absent. -/
def relChildren (c : Config) (g a t : String) : List String :=
  ((findTag c g a t).map (fun tr => tr.children)).getD []

theorem findTag_updateTags_self (c : Config) (g a t : String)
    (f : TagRecord → TagRecord) :
    findTag (updateTags c g a t f) g a t =
      some (f ((findTag c g a t).getD {})) := by
  unfold updateTags findTag findAsset findGenome
  simp only [alistFind_upsert_self]
  rcases hg : alistFind g c.genomes with _ | gr
  · simp [alistFind, alistFind_upsert_self]
  · simp only [Option.getD_some, Option.some_bind, alistFind_upsert_self]
    rcases ha : alistFind a gr.assets with _ | ar
    · simp [alistFind, alistFind_upsert_self]
    · simp [alistFind_upsert_self]

theorem findTag_updateTags_other (c : Config) (g2 a2 t2 g a t : String)
    (f : TagRecord → TagRecord) (hne : ¬(g2 = g ∧ a2 = a ∧ t2 = t)) :
    findTag (updateTags c g2 a2 t2 f) g a t = findTag c g a t := by
  unfold updateTags findTag findAsset findGenome
  by_cases hg : g2 = g
  · subst hg
    simp only [alistFind_upsert_self, Option.getD_some, Option.some_bind]
    by_cases ha : a2 = a
    · subst ha
      have ht : t2 ≠ t := fun h => hne ⟨rfl, rfl, h⟩
      rcases hgr : alistFind g2 c.genomes with _ | gr
      · simp [alistFind, alistFind_upsert_self, alistFind_upsert_other, ht]
      · simp only [Option.getD_some, Option.some_bind, alistFind_upsert_self]
        rcases har : alistFind a2 gr.assets with _ | ar
        · simp [alistFind, alistFind_upsert_other, ht]
        · simp [alistFind_upsert_other, ht]
    · rcases hgr : alistFind g2 c.genomes with _ | gr
      · simp [alistFind, alistFind_upsert_other, ha]
      · simp [alistFind_upsert_other, ha]
  · simp [alistFind_upsert_other, hg]

/-- The tag record at an address, the empty record when absent. -/
def tagOrEmpty (c : Config) (g a t : String) : TagRecord :=
  (findTag c g a t).getD {}

/-- The field change applied by updateRelatives to the addressed record. -/
def updRel (tr : TagRecord) (rels : List String) (b : Bool) : TagRecord :=
  if b then { tr with children := extendUnique tr.children rels }
  else { tr with parents := extendUnique tr.parents rels }

theorem findTag_updateRelatives_self (c : Config) (g a t : String)
    (rels : List String) (b : Bool) :
    findTag (updateRelatives c g a t rels b) g a t =
      some (updRel (tagOrEmpty c g a t) rels b) := by
  have h := findTag_updateTags_self c g a t (fun tr => updRel tr rels b)
  rw [show updateRelatives c g a t rels b =
        updateTags c g a t (fun tr => updRel tr rels b) from rfl, h]
  rfl

theorem findTag_updateRelatives_other (c : Config) (g2 a2 t2 g a t : String)
    (rels : List String) (b : Bool) (hne : ¬(g2 = g ∧ a2 = a ∧ t2 = t)) :
    findTag (updateRelatives c g2 a2 t2 rels b) g a t = findTag c g a t :=
  findTag_updateTags_other c g2 a2 t2 g a t _ hne

theorem mem_extendUnique_left (x : String) (add : List String) :
    ∀ l : List String, x ∈ l → x ∈ extendUnique l add := by
  induction add with
  | nil => intro l h; exact h
  | cons y rest ih =>
    intro l h
    have hstep : x ∈ (if y ∈ l then l else l ++ [y]) := by
      by_cases hy : y ∈ l
      · rw [if_pos hy]; exact h
      · rw [if_neg hy]; exact List.mem_append_left _ h
    exact ih _ hstep

theorem mem_extendUnique_right (x : String) (add : List String) :
    ∀ l : List String, x ∈ add → x ∈ extendUnique l add := by
  induction add with
  | nil => intro l h; exact absurd h (List.not_mem_nil x)
  | cons y rest ih =>
    intro l h
    rcases List.mem_cons.mp h with h | h
    · subst h
      have hstep : x ∈ (if x ∈ l then l else l ++ [x]) := by
        by_cases hy : x ∈ l
        · rw [if_pos hy]; exact hy
        · rw [if_neg hy]; exact List.mem_append_right _ (List.mem_singleton.mpr rfl)
      exact mem_extendUnique_left x rest _ hstep
    · exact ih _ h

theorem mem_parents_tagOrEmpty (c : Config) (g a t : String) (x : String)
    (h : x ∈ relParents c g a t) : x ∈ (tagOrEmpty c g a t).parents := by
  unfold relParents at h
  unfold tagOrEmpty
  cases hft : findTag c g a t with
  | none => rw [hft] at h; simp at h
  | some tr => rw [hft] at h; simpa using h

theorem mem_children_tagOrEmpty (c : Config) (g a t : String) (x : String)
    (h : x ∈ relChildren c g a t) : x ∈ (tagOrEmpty c g a t).children := by
  unfold relChildren at h
  unfold tagOrEmpty
  cases hft : findTag c g a t with
  | none => rw [hft] at h; simp at h
  | some tr => rw [hft] at h; simpa using h

theorem mem_relParents_updateRelatives (c : Config) (g2 a2 t2 g a t : String)
    (rels : List String) (b : Bool) (x : String)
    (h : x ∈ relParents c g a t) :
    x ∈ relParents (updateRelatives c g2 a2 t2 rels b) g a t := by
  by_cases hkey : g2 = g ∧ a2 = a ∧ t2 = t
  · obtain ⟨rfl, rfl, rfl⟩ := hkey
    have h2 := mem_parents_tagOrEmpty c g2 a2 t2 x h
    unfold relParents
    rw [findTag_updateRelatives_self]
    cases b
    · simpa [updRel] using mem_extendUnique_left x rels _ h2
    · simpa [updRel] using h2
  · unfold relParents
    rw [findTag_updateRelatives_other c g2 a2 t2 g a t rels b hkey]
    exact h

theorem mem_relChildren_updateRelatives (c : Config) (g2 a2 t2 g a t : String)
    (rels : List String) (b : Bool) (x : String)
    (h : x ∈ relChildren c g a t) :
    x ∈ relChildren (updateRelatives c g2 a2 t2 rels b) g a t := by
  by_cases hkey : g2 = g ∧ a2 = a ∧ t2 = t
  · obtain ⟨rfl, rfl, rfl⟩ := hkey
    have h2 := mem_children_tagOrEmpty c g2 a2 t2 x h
    unfold relChildren
    rw [findTag_updateRelatives_self]
    cases b
    · simpa [updRel] using h2
    · simpa [updRel] using mem_extendUnique_left x rels _ h2
  · unfold relChildren
    rw [findTag_updateRelatives_other c g2 a2 t2 g a t rels b hkey]
    exact h

theorem mem_relParents_updateRelatives_self (c : Config) (g a t : String)
    (rels : List String) (x : String) (h : x ∈ rels) :
    x ∈ relParents (updateRelatives c g a t rels false) g a t := by
  unfold relParents
  rw [findTag_updateRelatives_self]
  simp only [updRel, Bool.false_eq_true, if_false, Option.map_some,
    Option.getD_some]
  exact mem_extendUnique_right x rels _ h

theorem mem_relChildren_updateRelatives_self (c : Config) (g a t : String)
    (rels : List String) (x : String) (h : x ∈ rels) :
    x ∈ relChildren (updateRelatives c g a t rels true) g a t := by
  unfold relChildren
  rw [findTag_updateRelatives_self]
  simp only [updRel, if_true, Option.map_some, Option.getD_some]
  exact mem_extendUnique_right x rels _ h

theorem relParents_foldl_mem (genome ak att : String)
    (l : List (String × String)) :
    ∀ (cc : Config) (x : String) (g a t : String), x ∈ relParents cc g a t →
      x ∈ relParents
        (l.foldl (fun cc pt =>
          updateRelatives cc genome pt.1 pt.2 [ak ++ ":" ++ att] true) cc)
        g a t := by
  induction l with
  | nil => intro cc x g a t h; exact h
  | cons q rest ih =>
    intro cc x g a t h
    exact ih _ x g a t
      (mem_relParents_updateRelatives cc genome q.1 q.2 g a t _ true x h)

theorem relChildren_foldl_mem (genome ak att : String)
    (l : List (String × String)) :
    ∀ (cc : Config) (x : String) (g a t : String), x ∈ relChildren cc g a t →
      x ∈ relChildren
        (l.foldl (fun cc pt =>
          updateRelatives cc genome pt.1 pt.2 [ak ++ ":" ++ att] true) cc)
        g a t := by
  induction l with
  | nil => intro cc x g a t h; exact h
  | cons q rest ih =>
    intro cc x g a t h
    exact ih _ x g a t
      (mem_relChildren_updateRelatives cc genome q.1 q.2 g a t _ true x h)

theorem foldl_children_adds (genome ak att : String)
    (l : List (String × String)) :
    ∀ (cc : Config) (p : String × String), p ∈ l →
      (ak ++ ":" ++ att) ∈ relChildren
        (l.foldl (fun cc pt =>
          updateRelatives cc genome pt.1 pt.2 [ak ++ ":" ++ att] true) cc)
        genome p.1 p.2 := by
  induction l with
  | nil => intro cc p h; exact absurd h (List.not_mem_nil p)
  | cons q rest ih =>
    intro cc p h
    rcases List.mem_cons.mp h with h | h
    · subst h
      exact relChildren_foldl_mem genome ak att rest _ _ genome p.1 p.2
        (mem_relChildren_updateRelatives_self cc genome p.1 p.2 _ _
          (List.mem_singleton.mpr rfl))
    · exact ih _ p h

theorem build_asset_ok (ctx : Ctx) (c : Config) (genome ak tg : String)
    (pkg : Recipe) (outfolder : String)
    (hrun : ctx.runnerOk
      (joinP [joinP [outfolder, ak, tg], "build_complete.flag"]) = true) :
    build_asset ctx c genome ak tg pkg outfolder =
      (.proceed, (build_asset ctx c genome ak tg pkg outfolder).2.1,
        [Effect.makeDir (joinP [outfolder, ak, tg]),
         Effect.run (joinP [joinP [outfolder, ak, tg], "build_complete.flag"]),
         Effect.write (build_asset ctx c genome ak tg pkg outfolder).2.1]) := by
  simp only [build_asset, hrun, if_true, List.cons_append, List.nil_append]

/-- C9: after a successful build-loop iteration for an asset with resolved
parents, the relatives lists are symmetric for the tagged versions
involved: every resolved parent:tag is in the built (asset, tag) parents
list and the built asset:tag is in that parent (asset, tag) children
list, in the one final configuration; the last effect of the iteration is
the single store write persisting that configuration, so both directions
are persisted in one operation. -/
theorem build_relatives_symmetric (ctx : Ctx) (genome outfolder : String)
    (c : Config) (a : ParsedAsset) (pkg : Recipe)
    (ias : AList String (Option String)) (pas : List (String × String))
    (hfasta : a.asset ≠ "fasta")
    (hpkg : alistFind a.asset ctx.catalog = some pkg)
    (hres : resolveParents ctx c genome pkg.reqAssets pkg.reqAssets =
      .ok (ias, pas))
    (hin : checkInputs ctx a.asset pkg.reqIn = .ok ())
    (hreq : checkReqAssets c genome a.asset pkg.reqAssets = .ok ())
    (hrun : ctx.runnerOk (joinP [joinP [outfolder, a.asset,
      a.tag.getD (get_default_tag c genome a.asset false)],
      "build_complete.flag"]) = true) :
    (buildOne ctx genome outfolder c a).1 = .proceed ∧
    (∀ p ∈ pas,
      (p.1 ++ ":" ++ p.2) ∈ relParents (buildOne ctx genome outfolder c a).2.1
        genome a.asset (a.tag.getD (get_default_tag c genome a.asset false)) ∧
      (a.asset ++ ":" ++ a.tag.getD (get_default_tag c genome a.asset false)) ∈
        relChildren (buildOne ctx genome outfolder c a).2.1 genome p.1 p.2) ∧
    (buildOne ctx genome outfolder c a).2.2.getLast? =
      some (Effect.write (buildOne ctx genome outfolder c a).2.1) := by
  obtain ⟨c5, hba⟩ : ∃ c5, build_asset ctx c genome a.asset
      (a.tag.getD (get_default_tag c genome a.asset false)) pkg outfolder =
      (.proceed, c5,
        [Effect.makeDir (joinP [outfolder, a.asset,
           a.tag.getD (get_default_tag c genome a.asset false)]),
         Effect.run (joinP [joinP [outfolder, a.asset,
           a.tag.getD (get_default_tag c genome a.asset false)],
           "build_complete.flag"]),
         Effect.write c5]) :=
    ⟨_, build_asset_ok ctx c genome a.asset
      (a.tag.getD (get_default_tag c genome a.asset false)) pkg outfolder hrun⟩
  have hb : buildOne ctx genome outfolder c a =
      (.proceed,
        pas.foldl (fun cc pt => updateRelatives cc genome pt.1 pt.2
            [a.asset ++ ":" ++
              a.tag.getD (get_default_tag c genome a.asset false)] true)
          (updateRelatives c5 genome a.asset
            (a.tag.getD (get_default_tag c genome a.asset false))
            (pas.map (fun pt => pt.1 ++ ":" ++ pt.2)) false),
        [] ++
          [Effect.makeDir (joinP [outfolder, a.asset,
             a.tag.getD (get_default_tag c genome a.asset false)]),
           Effect.run (joinP [joinP [outfolder, a.asset,
             a.tag.getD (get_default_tag c genome a.asset false)],
             "build_complete.flag"]),
           Effect.write c5] ++
          [Effect.write
            (pas.foldl (fun cc pt => updateRelatives cc genome pt.1 pt.2
                [a.asset ++ ":" ++
                  a.tag.getD (get_default_tag c genome a.asset false)] true)
              (updateRelatives c5 genome a.asset
                (a.tag.getD (get_default_tag c genome a.asset false))
                (pas.map (fun pt => pt.1 ++ ":" ++ pt.2)) false))]) := by
    simp only [buildOne, hpkg, hres, hin, hreq, if_neg hfasta, hba]
  rw [hb]
  refine ⟨rfl, ?_, rfl⟩
  intro p hp
  constructor
  · apply relParents_foldl_mem
    exact mem_relParents_updateRelatives_self c5 genome a.asset
      (a.tag.getD (get_default_tag c genome a.asset false))
      (pas.map (fun pt => pt.1 ++ ":" ++ pt.2)) (p.1 ++ ":" ++ p.2)
      (List.mem_map_of_mem _ hp)
  · exact foldl_children_adds genome a.asset
      (a.tag.getD (get_default_tag c genome a.asset false)) pas _ p hp

/-- The concrete registry of the C9 witness: the genome holds a fasta
asset under its default tag. -/
def cfgC9 : Config :=
  { genomeFolder := "/genomes",
    genomes := [("hg38", { checksum := some "S", assets :=
      [("fasta", { defaultTag := some "default",
                   tags := [("default", { path := some "fasta" })] })] })] }

/-- Witness for C9: building bowtie2_index over the present fasta parent
records fasta:default among its parents and bowtie2_index:default among
the children of fasta:default. -/
theorem build_relatives_symmetric_witness :
    "fasta:default" ∈ relParents
      (buildOne ctxC4 "hg38" "/genomes/hg38" cfgC9 paC4).2.1
      "hg38" "bowtie2_index" "default" ∧
    "bowtie2_index:default" ∈ relChildren
      (buildOne ctxC4 "hg38" "/genomes/hg38" cfgC9 paC4).2.1
      "hg38" "fasta" "default" := by
  have h := build_relatives_symmetric ctxC4 "hg38" "/genomes/hg38" cfgC9 paC4
    { desc := "bt2", reqIn := [], reqAssets := [{ item := "fasta" }] }
    [("fasta", some "/genomes/hg38/fasta/default")] [("fasta", "default")]
    (by decide) rfl rfl rfl rfl rfl
  have h2 := h.2.1 ("fasta", "default") (List.mem_singleton.mpr rfl)
  exact ⟨h2.1, h2.2⟩

end Refgenie
